import Mathlib

/-!
# Verification of the single-machine pod-admission core

A shallow embedding of the scheduling core: the `Machine` data model,
`NewMachine`, `Machine.Add`, `Machine.FinalizeScheduling`,
`InstanceTypeList`, `filterInstanceTypesByRequirements`, `compatible`,
`fits` and `hasOffering`, together with theorems about the admission
algorithm's atomicity, check ordering, invariants, monotonic narrowing,
filter correctness and formatting behaviour.

The collaborators consumed by the core (the requirement-set algebra, the
topology tracker, the host-port ledger, the resource-list helpers and the
instance-type catalog entries) are specified only at the interface level;
they are modelled here from that interface specification, each marked with
a `Modelled from the spec:` doc comment.
-/

namespace KarpenterCore

/-- Well-known label key, `v1.LabelHostname`. -/
def labelHostname : String := "kubernetes.io/hostname"

/-- Well-known label key, `v1.LabelTopologyZone`. -/
def labelTopologyZone : String := "topology.kubernetes.io/zone"

/-- Well-known label key, `v1alpha5.LabelCapacityType`. -/
def labelCapacityType : String := "karpenter.sh/capacity-type"

/-- Modelled from the spec: one entry of a Requirement Set
(`scheduling.Requirement`, not under version control here), a
label-key → allowed-value-set constraint; the algebra is represented with
`In`-operator value-set semantics ("label-key → allowed-value-set
constraints"). -/
structure Requirement where
  key : String
  values : List String
deriving DecidableEq

/-- Modelled from the spec: a Requirement Set (`scheduling.Requirements`),
"a conjunction of per-label-key allowed-value constraints", represented as
an association list with at most one entry per key (maintained by
`reqsAdd`). -/
abbrev Requirements := List Requirement

/-- `Requirements.Has(key)`: whether a key is constrained. -/
def reqHas : Requirements → String → Bool
  | [], _ => false
  | r :: rest, k => if r.key = k then true else reqHas rest k

/-- `Requirements.Get(key)`: the allowed-value set of a key ([] when the
key is unconstrained; the source only calls `Get` on keys it `Has`). -/
def reqGet : Requirements → String → List String
  | [], _ => []
  | r :: rest, k => if r.key = k then r.values else reqGet rest k

/-- Intersection of two allowed-value sets. -/
def valuesIntersect (a b : List String) : List String :=
  a.filter (fun v => b.contains v)

/-- Modelled from the spec: `Requirements.Add` ("merge") of a single
requirement. Merging a conjunction constrains further: an existing entry
for the same key is replaced by the intersection of the allowed-value
sets; a fresh key is appended. -/
def reqsAdd : Requirements → Requirement → Requirements
  | [], r => [r]
  | r0 :: rest, r =>
      if r0.key = r.key then ⟨r0.key, valuesIntersect r0.values r.values⟩ :: rest
      else r0 :: reqsAdd rest r

/-- `Requirements.Add(values...)`: merge a sequence of requirements. -/
def reqsAddAll : Requirements → List Requirement → Requirements
  | rs, [] => rs
  | rs, r :: rest => reqsAddAll (reqsAdd rs r) rest

/-- `scheduling.NewRequirements(values...)`: build a requirement set from
a sequence of requirements (used by the source to copy a set via
`NewRequirements(m.Requirements.Values()...)`). -/
def NewRequirements (values : List Requirement) : Requirements :=
  reqsAddAll [] values

/-- Modelled from the spec: `Requirements.Compatible(other) -> error|nil`
("fail if the two sets contradict (no value satisfies both)"): an error is
reported exactly when some key constrained by both sets has an empty
intersection of allowed values. -/
def reqtsCompatible (a b : Requirements) : Except String Unit :=
  match a.find? (fun r => reqHas b r.key && (valuesIntersect r.values (reqGet b r.key)).isEmpty) with
  | some r => .error ("key " ++ r.key ++ " has conflicting values")
  | none => .ok ()

/-- Modelled from the spec: `Requirements.Intersects(other) -> error|nil`
("whether their allowed-value sets intersect on every shared key"). -/
def reqtsIntersects (a b : Requirements) : Except String Unit :=
  match a.find? (fun r => reqHas b r.key && (valuesIntersect r.values (reqGet b r.key)).isEmpty) with
  | some r => .error ("key " ++ r.key ++ " does not intersect")
  | none => .ok ()

/-- Modelled from the spec: a resource list (`v1.ResourceList`), resource
name → quantity; quantities are represented as naturals. -/
abbrev ResourceList := List (String × Nat)

/-- Quantity of a resource in a list (0 when absent, as for a Go map). -/
def getQty : ResourceList → String → Nat
  | [], _ => 0
  | (k, q) :: rest, k' => if k = k' then q else getQty rest k'

/-- Add a quantity to the entry of one resource (append when absent). -/
def addQty : ResourceList → String → Nat → ResourceList
  | [], k, q => [(k, q)]
  | (k0, q0) :: rest, k, q =>
      if k0 = k then (k0, q0 + q) :: rest else (k0, q0) :: addQty rest k q

/-- Accumulate every entry of the second list into the first. -/
def mergeInto : ResourceList → ResourceList → ResourceList
  | acc, [] => acc
  | acc, (k, q) :: rest => mergeInto (addQty acc k q) rest

/-- Modelled from the spec: `resources.Merge(resourceList...)` — sums the
entries of its arguments into a fresh result, per resource name. -/
def Merge (a b : ResourceList) : ResourceList :=
  mergeInto (mergeInto [] a) b

/-- Modelled from the spec: `resources.Fits(requested, allocatable)` —
"the given requests, component-wise, do not exceed the allocatable
resource capacity". -/
def rlFits (requested allocatable : ResourceList) : Bool :=
  requested.all (fun kq => decide (kq.2 ≤ getQty allocatable kq.1))

/-- Modelled from the spec: the parts of a pod (`v1.Pod`) the core reads:
an identity, its tolerations, its requested host ports
(protocol, host-IP, host-port), the requirement set derived from its node
selectors/affinity terms, and its resource requests. -/
structure Pod where
  uid : Nat
  tolerations : List String
  hostPorts : List (String × String × Nat)
  requirements : Requirements
  requests : ResourceList
deriving DecidableEq

/-- Modelled from the spec: `scheduling.NewPodRequirements(pod)` — "the
pod's derived requirement set (from node selectors/affinity/anti-affinity
terms)", carried here directly on the pod. -/
def NewPodRequirements (pod : Pod) : Requirements := pod.requirements

/-- Modelled from the spec: `resources.RequestsForPods(pod)` — the pod's
own resource requests. -/
def RequestsForPods (pod : Pod) : ResourceList := pod.requests

/-- Modelled from the spec: `Taints.Tolerates(pod)` — "fail if the pod
does not tolerate every taint on the machine"; taints are represented by
their identity string. -/
def taintsTolerates (taints : List String) (pod : Pod) : Except String Unit :=
  match taints.find? (fun t => !pod.tolerations.contains t) with
  | some t => .error ("did not tolerate " ++ t)
  | none => .ok ()

/-- Modelled from the spec: the Host Port Ledger's state, the claimed
(protocol, host-IP, host-port) tuples. `scheduling.NewHostPortUsage()`
starts empty. -/
abbrev HostPortUsage := List (String × String × Nat)

/-- Modelled from the spec: `HostPortUsage.Validate(pod)` — "fail if the
pod requests a host port already claimed on this machine (validation only
— no mutation)". -/
def hostPortValidate (usage : HostPortUsage) (pod : Pod) : Except String Unit :=
  match pod.hostPorts.find? (fun hp => usage.contains hp) with
  | some hp => .error ("host port " ++ toString hp.2.2 ++ " already in use")
  | none => .ok ()

/-- Modelled from the spec: `HostPortUsage.Add(ctx, pod)` — claim the
pod's host ports. -/
def hostPortAdd (usage : HostPortUsage) (pod : Pod) : HostPortUsage :=
  usage ++ pod.hostPorts

/-- Modelled from the spec: an offering of an instance type, "an
availability tuple (zone, capacity type) under which a given instance type
can actually be obtained". -/
structure Offering where
  Zone : String
  CapacityType : String
  Available : Bool
deriving DecidableEq

/-- `Offerings.Available()`: the available offerings. -/
def offeringsAvailable (os : List Offering) : List Offering :=
  os.filter (fun o => o.Available)

/-- Modelled from the spec: an Instance Type Catalog entry
(`cloudprovider.InstanceType`): "a named hardware shape with its own
requirement set, allocatable resource capacity, and a set of offerings". -/
structure InstanceType where
  Name : String
  Requirements : Requirements
  allocatable : ResourceList
  Offerings : List Offering
deriving DecidableEq

/-- Modelled from the spec: `InstanceType.Allocatable()` — the instance
type's allocatable resource capacity. -/
def InstanceType.Allocatable (it : InstanceType) : ResourceList :=
  it.allocatable

/-- Modelled from the spec: the Topology Tracker's state: registered
domain values (`Register`), committed placement records (`Record`), and
the derivation function behind `AddRequirements` ("derives the domain-value
requirement a new pod must satisfy"; its internals are out of scope, so it
is kept abstract as a field). -/
structure Topology where
  registered : List (String × String)
  records : List (Nat × Requirements)
  derive : Requirements → Requirements → Pod → Except String Requirements

/-- `Topology.Register(key, value)`: declare a new domain value. -/
def Topology.register (t : Topology) (k v : String) : Topology :=
  { t with registered := t.registered ++ [(k, v)] }

/-- `Topology.AddRequirements(podRequirements, machineRequirements, pod)`:
derive the requirements the pod imposes (pure; "side effects are
externally visible only at commit"). -/
def Topology.addRequirements (t : Topology) (podReqts machineReqts : Requirements)
    (pod : Pod) : Except String Requirements :=
  t.derive podReqts machineReqts pod

/-- `Topology.Record(pod, requirements)`: permanently record the pod's
placement under its final merged requirements. -/
def Topology.record (t : Topology) (pod : Pod) (reqts : Requirements) : Topology :=
  { t with records := t.records ++ [(pod.uid, reqts)] }

/-- The constraint envelope of a machine before any pods are added
(`MachineTemplate`). -/
structure MachineTemplate where
  Requirements : Requirements
  Taints : List String
  Requests : ResourceList
  InstanceTypeOptions : List InstanceType
deriving DecidableEq

/-- A mutable, in-progress candidate node (`Machine`): the template
fields of its embedded `MachineTemplate` plus the admitted pods and its
own host-port ledger. The shared topology tracker is threaded through the
operations explicitly rather than stored as a reference. -/
structure Machine where
  Requirements : Requirements
  Taints : List String
  Requests : ResourceList
  InstanceTypeOptions : List InstanceType
  Pods : List Pod
  hostPortUsage : HostPortUsage
deriving DecidableEq

/-- One decimal digit as a character. -/
def digitChar : Nat → Char
  | 0 => '0' | 1 => '1' | 2 => '2' | 3 => '3' | 4 => '4'
  | 5 => '5' | 6 => '6' | 7 => '7' | 8 => '8' | _ => '9'

/-- Decimal digits of a natural number, most significant first. -/
def toDec (n : Nat) : List Char :=
  if _h : n < 10 then [digitChar n]
  else toDec (n / 10) ++ [digitChar (n % 10)]
termination_by n
decreasing_by
  exact Nat.div_lt_self (by omega) (by omega)

/-- `fmt.Sprintf("%04d", n)`: the decimal form of `n`, left-padded with
zeros to at least four characters. -/
def pad4 (n : Nat) : String :=
  String.mk (List.replicate (4 - (toDec n).length) '0' ++ toDec n)

/-- The synthetic hostname value generated for counter value `id`
(`fmt.Sprintf("hostname-placeholder-%04d", id)`). -/
def hostnameFor (id : Nat) : String :=
  "hostname-placeholder-" ++ pad4 id

/-- Modelled from the spec: `resources.String(resourceList)` — a
human-readable rendering of a resource list (non-normative text). -/
def resourcesString (rl : ResourceList) : String :=
  String.intercalate ", " (rl.map (fun kq => kq.1 ++ "=" ++ toString kq.2))

/-- Modelled from the spec: the human-readable rendering of a requirement
set used in error messages (non-normative text). -/
def reqtsString (rs : Requirements) : String :=
  String.intercalate ", " (rs.map (fun r => r.key ++ " in " ++ String.intercalate "|" r.values))

/-- `%v` of a Go string slice: the elements space-separated in
brackets. -/
def sliceString (xs : List String) : String :=
  "[" ++ String.intercalate " " xs ++ "]"

/-- `compatible(instanceType, requirements)`: the instance type's own
requirement set intersects the given requirement set. -/
def compatible (instanceType : InstanceType) (requirements : Requirements) : Bool :=
  match reqtsIntersects instanceType.Requirements requirements with
  | .ok _ => true
  | .error _ => false

/-- `fits(instanceType, requests)`: the requests fit within the instance
type's allocatable capacity. -/
def fits (instanceType : InstanceType) (requests : ResourceList) : Bool :=
  rlFits requests instanceType.Allocatable

/-- `hasOffering(instanceType, requirements)`: some available offering
matches the zone constraint (if any) and the capacity-type constraint
(if any). -/
def hasOffering (instanceType : InstanceType) (requirements : Requirements) : Bool :=
  (offeringsAvailable instanceType.Offerings).any (fun offering =>
    (!reqHas requirements labelTopologyZone
      || (reqGet requirements labelTopologyZone).contains offering.Zone) &&
    (!reqHas requirements labelCapacityType
      || (reqGet requirements labelCapacityType).contains offering.CapacityType))

/-- `filterInstanceTypesByRequirements`: keep the instance types
satisfying all three predicates; count, independently for every candidate,
each failed predicate, and report the three counts as a single aggregated
diagnostic string. (The source's single pass with counter increments is
expressed as `countP` for each counter plus `filter` for the result.) -/
def filterInstanceTypesByRequirements (instanceTypes : List InstanceType)
    (requirements : Requirements) (requests : ResourceList) :
    List InstanceType × List String :=
  let incompatCount := instanceTypes.countP (fun it => !compatible it requirements)
  let fitsCount := instanceTypes.countP (fun it => !fits it requests)
  let hasOfferingCount := instanceTypes.countP (fun it => !hasOffering it requirements)
  let results := instanceTypes.filter (fun it =>
    compatible it requirements && fits it requests && hasOffering it requirements)
  (results, [toString incompatCount ++ " incompatibile, " ++ toString fitsCount
    ++ " won't fit, " ++ toString hasOfferingCount ++ " no offerings"])

/-- `NewMachine(machineTemplate, topology, daemonResources, instanceTypes)`.
The process-wide `nodeID` counter mutated by `atomic.AddInt64` is threaded
explicitly: the function takes the current counter value and returns the
incremented one along with the machine and the updated topology. -/
def NewMachine (machineTemplate : MachineTemplate) (topology : Topology)
    (daemonResources : ResourceList) (instanceTypes : List InstanceType)
    (nodeID : Nat) : Machine × Topology × Nat :=
  let newID := nodeID + 1
  let hostname := hostnameFor newID
  let topology := topology.register labelHostname hostname
  let requirements :=
    reqsAdd (reqsAddAll (NewRequirements []) machineTemplate.Requirements)
      ⟨labelHostname, [hostname]⟩
  ({ Requirements := requirements
     Taints := machineTemplate.Taints
     Requests := daemonResources
     InstanceTypeOptions := instanceTypes
     Pods := []
     hostPortUsage := [] }, topology, newID)

/-- `Machine.Add(ctx, pod)`: the all-or-nothing admission transaction.
The Go method mutates the receiver and the shared topology only in the
final commit step; here it returns the outcome together with the (next)
machine and topology states, which equal the inputs on every error
path. -/
def Machine.Add (m : Machine) (topo : Topology) (pod : Pod) :
    Except String Unit × Machine × Topology :=
  match taintsTolerates m.Taints pod with
  | .error e => (.error e, m, topo)
  | .ok _ =>
  match hostPortValidate m.hostPortUsage pod with
  | .error e => (.error e, m, topo)
  | .ok _ =>
  let machineRequirements := NewRequirements m.Requirements
  let podRequirements := NewPodRequirements pod
  match reqtsCompatible machineRequirements podRequirements with
  | .error e => (.error ("incompatible requirements, " ++ e), m, topo)
  | .ok _ =>
  let machineRequirements := reqsAddAll machineRequirements podRequirements
  match topo.addRequirements podRequirements machineRequirements pod with
  | .error e => (.error e, m, topo)
  | .ok topologyRequirements =>
  match reqtsCompatible machineRequirements topologyRequirements with
  | .error e => (.error e, m, topo)
  | .ok _ =>
  let machineRequirements := reqsAddAll machineRequirements topologyRequirements
  let requests := Merge m.Requests (RequestsForPods pod)
  let beforeOptsCount := m.InstanceTypeOptions.length
  let filtered := filterInstanceTypesByRequirements m.InstanceTypeOptions machineRequirements requests
  if filtered.1.isEmpty then
    (.error ("no instance type satisfied resources " ++ resourcesString (RequestsForPods pod)
      ++ " and requirements " ++ reqtsString machineRequirements
      ++ " [had " ++ toString beforeOptsCount ++ "] (" ++ sliceString filtered.2 ++ ")"), m, topo)
  else
    (.ok (),
     { m with
       Pods := m.Pods ++ [pod]
       InstanceTypeOptions := filtered.1
       Requests := requests
       Requirements := machineRequirements
       hostPortUsage := hostPortAdd m.hostPortUsage pod },
     topo.record pod machineRequirements)

/-- Removal of a key from a requirement set (Go's `delete(map, key)`;
the association list holds at most one entry per key, and every entry
with the key is removed). -/
def reqsDelete : Requirements → String → Requirements
  | [], _ => []
  | r :: rest, k => if r.key = k then reqsDelete rest k else r :: reqsDelete rest k

/-- `Machine.FinalizeScheduling()`: remove the synthetic hostname
requirement (`delete(m.Requirements, v1.LabelHostname)`). -/
def Machine.FinalizeScheduling (m : Machine) : Machine :=
  { m with Requirements := reqsDelete m.Requirements labelHostname }

/-- Loop body of `InstanceTypeList`: `total` is the length of the whole
list, `i` the index of the head of the remaining list; at the first index
above 4 the loop emits the remaining count and breaks. -/
def itlGo (total : Nat) : List InstanceType → Nat → String
  | [], _ => ""
  | it :: rest, i =>
      if i > 4 then " and " ++ toString (total - i) ++ " other(s)"
      else (if i > 0 then ", " else "") ++ it.Name ++ itlGo total rest (i + 1)

/-- `InstanceTypeList(instanceTypeOptions)`: comma-separated names,
truncated after the first five with an "and N other(s)" suffix. -/
def InstanceTypeList (instanceTypeOptions : List InstanceType) : String :=
  itlGo instanceTypeOptions.length instanceTypeOptions 0

/-- `Machine.String()`. -/
def Machine.toStr (m : Machine) : String :=
  "machine with " ++ toString m.Pods.length ++ " pods requesting "
    ++ resourcesString m.Requests ++ " from types " ++ InstanceTypeList m.InstanceTypeOptions

/-- Sequencing harness for reasoning about "any sequence of successful
`Add` calls": run `Machine.Add` over a list of pods, threading machine and
topology, and yield the final states when every call succeeds. -/
def addAll (m : Machine) (t : Topology) : List Pod → Option (Machine × Topology)
  | [] => some (m, t)
  | p :: ps =>
      match Machine.Add m t p with
      | (.ok _, m', t') => addAll m' t' ps
      | (.error _, _, _) => none

/-! ## Concrete fixtures used by witnesses -/

/-- A small instance type: 4 cpu / 8 memory, one available offering. -/
def itSmall : InstanceType :=
  ⟨"small", [], [("cpu", 4), ("memory", 8)], [⟨"zone-a", "on-demand", true⟩]⟩

/-- An instance type failing all three filter predicates against
`reqsK` / a cpu request: conflicting `k` values, empty allocatable, no
offerings. -/
def itBad : InstanceType := ⟨"bad", [⟨"k", ["b"]⟩], [], []⟩

/-- A requirement set constraining key `k` to `a`. -/
def reqsK : Requirements := [⟨"k", ["a"]⟩]

/-- A pod with no tolerations, no host ports, no requirements, requesting
2 cpu. -/
def podBasic : Pod := ⟨1, [], [], [], [("cpu", 2)]⟩

/-- A topology tracker whose derivation imposes no requirements. -/
def topoTrivial : Topology := ⟨[], [], fun _ _ _ => .ok []⟩

/-- An unconstrained machine whose only candidate is `itSmall`. -/
def machineBasic : Machine := ⟨[], [], [], [itSmall], [], []⟩

/-- `machineBasic` carrying a `gpu` taint. -/
def machineTainted : Machine := { machineBasic with Taints := ["gpu"] }

/-- The machine state after `machineBasic` admits `podBasic`. -/
def machineAfter : Machine :=
  { machineBasic with Pods := [podBasic], Requests := [("cpu", 2)] }

/-- The topology state after `machineBasic` admits `podBasic`. -/
def topoAfter : Topology := { topoTrivial with records := [(podBasic.uid, [])] }

/-! ## Helper lemmas -/

/-- A failing conjunction of three predicates fails at least one of them:
counting per-predicate failures over-counts the excluded elements. -/
theorem countP_not_and₃_le {α : Type} (l : List α) (p q r : α → Bool) :
    l.countP (fun x => !(p x && q x && r x))
      ≤ l.countP (fun x => !p x) + l.countP (fun x => !q x) + l.countP (fun x => !r x) := by
  induction l with
  | nil => simp
  | cons x xs ih =>
      cases hp : p x <;> cases hq : q x <;> cases hr : r x <;>
        simp only [List.countP_cons] <;>
        simp [hp, hq, hr] at ih ⊢ <;>
        omega

/-- Splitting a list's length by a predicate and its complement. -/
theorem length_eq_countP_add_countP_not {α : Type} (l : List α) (p : α → Bool) :
    l.length = l.countP p + l.countP (fun x => !p x) := by
  induction l with
  | nil => simp
  | cons x xs ih =>
      cases hp : p x <;> simp [List.countP_cons, hp] <;> omega

theorem reqHas_delete_self (rs : Requirements) (k : String) :
    reqHas (reqsDelete rs k) k = false := by
  induction rs with
  | nil => simp [reqsDelete, reqHas]
  | cons r rest ih =>
      by_cases h : r.key = k
      · simp [reqsDelete, h, ih]
      · simp [reqsDelete, h, reqHas, ih]

theorem reqHas_delete_ne (rs : Requirements) (h k : String) (hk : k ≠ h) :
    reqHas (reqsDelete rs h) k = reqHas rs k := by
  induction rs with
  | nil => simp [reqsDelete]
  | cons r rest ih =>
      by_cases hr : r.key = h
      · have hne : ¬r.key = k := by rw [hr]; exact fun he => hk he.symm
        simp [reqsDelete, hr, reqHas, hne, Ne.symm hk, ih]
      · by_cases hrk : r.key = k
        · simp [reqsDelete, hr, reqHas, hrk, hk]
        · simp [reqsDelete, hr, reqHas, hrk, hk, ih]

theorem reqGet_delete_ne (rs : Requirements) (h k : String) (hk : k ≠ h) :
    reqGet (reqsDelete rs h) k = reqGet rs k := by
  induction rs with
  | nil => simp [reqsDelete]
  | cons r rest ih =>
      by_cases hr : r.key = h
      · have hne : ¬r.key = k := by rw [hr]; exact fun he => hk he.symm
        simp [reqsDelete, hr, reqGet, hne, Ne.symm hk, ih]
      · by_cases hrk : r.key = k
        · simp [reqsDelete, hr, reqGet, hrk, hk]
        · simp [reqsDelete, hr, reqGet, hrk, hk, ih]

/-! ## Claim theorems -/

/-- Claim C9: for every input instance type list, requirement set and
requests, the output of `filterInstanceTypesByRequirements` is a
subsequence of the input: it is the input with the non-viable entries
removed, with the relative order of the survivors preserved. -/
theorem filter_preserves_order (instanceTypes : List InstanceType)
    (requirements : Requirements) (requests : ResourceList) :
    List.Sublist (filterInstanceTypesByRequirements instanceTypes requirements requests).1
      instanceTypes := by
  simp only [filterInstanceTypesByRequirements]
  exact List.filter_sublist instanceTypes

/-- Claim C10: the filter counts, for every candidate of the input,
each failed predicate independently (one `countP` per predicate over the
whole list, so a candidate failing several predicates is counted in each
counter), the diagnostics are a single aggregated string of the three
counts, the number of excluded candidates never exceeds the sum of the
three counts, and on a concrete input failing all three predicates the
counts sum to 3 while only 1 candidate is excluded. -/
theorem filter_diagnostics (instanceTypes : List InstanceType)
    (requirements : Requirements) (requests : ResourceList) :
    (filterInstanceTypesByRequirements instanceTypes requirements requests).2
      = [toString (instanceTypes.countP (fun it => !compatible it requirements))
          ++ " incompatibile, "
          ++ toString (instanceTypes.countP (fun it => !fits it requests))
          ++ " won't fit, "
          ++ toString (instanceTypes.countP (fun it => !hasOffering it requirements))
          ++ " no offerings"]
    ∧ (filterInstanceTypesByRequirements instanceTypes requirements requests).2.length = 1
    ∧ instanceTypes.length
        - (filterInstanceTypesByRequirements instanceTypes requirements requests).1.length
      ≤ instanceTypes.countP (fun it => !compatible it requirements)
          + instanceTypes.countP (fun it => !fits it requests)
          + instanceTypes.countP (fun it => !hasOffering it requirements)
    ∧ ([itBad].countP (fun it => !compatible it reqsK)
          + [itBad].countP (fun it => !fits it [("cpu", 1)])
          + [itBad].countP (fun it => !hasOffering it reqsK) = 3
        ∧ [itBad].length
            - (filterInstanceTypesByRequirements [itBad] reqsK [("cpu", 1)]).1.length = 1) := by
  refine ⟨rfl, rfl, ?_, by decide⟩
  simp only [filterInstanceTypesByRequirements]
  have hlen : (instanceTypes.filter (fun it =>
      compatible it requirements && fits it requests && hasOffering it requirements)).length
      = instanceTypes.countP (fun it =>
          compatible it requirements && fits it requests && hasOffering it requirements) :=
    (List.countP_eq_length_filter _ _).symm
  have hsplit : instanceTypes.length
      = instanceTypes.countP (fun it =>
          compatible it requirements && fits it requests && hasOffering it requirements)
        + instanceTypes.countP (fun it =>
          !(compatible it requirements && fits it requests && hasOffering it requirements)) :=
    length_eq_countP_add_countP_not instanceTypes _
  have hle : instanceTypes.countP (fun it =>
        !(compatible it requirements && fits it requests && hasOffering it requirements))
      ≤ instanceTypes.countP (fun it => !compatible it requirements)
        + instanceTypes.countP (fun it => !fits it requests)
        + instanceTypes.countP (fun it => !hasOffering it requirements) :=
    countP_not_and₃_le instanceTypes _ _ _
  omega

/-- Claim C8: `FinalizeScheduling` removes the synthetic hostname
requirement and nothing else: afterwards the hostname key is no longer
constrained, every other key keeps its presence and allowed-value set,
and pods, requests, instance type options, taints and host-port claims
are unchanged. -/
theorem finalizeScheduling_spec (m : Machine) (k : String) :
    reqHas (Machine.FinalizeScheduling m).Requirements labelHostname = false
    ∧ (k ≠ labelHostname →
        reqHas (Machine.FinalizeScheduling m).Requirements k = reqHas m.Requirements k)
    ∧ (k ≠ labelHostname →
        reqGet (Machine.FinalizeScheduling m).Requirements k = reqGet m.Requirements k)
    ∧ (Machine.FinalizeScheduling m).Pods = m.Pods
    ∧ (Machine.FinalizeScheduling m).Requests = m.Requests
    ∧ (Machine.FinalizeScheduling m).InstanceTypeOptions = m.InstanceTypeOptions
    ∧ (Machine.FinalizeScheduling m).Taints = m.Taints
    ∧ (Machine.FinalizeScheduling m).hostPortUsage = m.hostPortUsage := by
  refine ⟨reqHas_delete_self m.Requirements labelHostname,
    fun hk => reqHas_delete_ne m.Requirements labelHostname k hk,
    fun hk => reqGet_delete_ne m.Requirements labelHostname k hk,
    rfl, rfl, rfl, rfl, rfl⟩

/-- Witness for C8 at a concrete machine and key. -/
theorem finalizeScheduling_spec_witness :
    "k" ≠ labelHostname
    ∧ reqHas (Machine.FinalizeScheduling
        { machineBasic with Requirements := [⟨labelHostname, ["h1"]⟩, ⟨"k", ["a"]⟩] }).Requirements "k"
      = reqHas ([⟨labelHostname, ["h1"]⟩, ⟨"k", ["a"]⟩] : Requirements) "k" :=
  ⟨by decide,
    (finalizeScheduling_spec
      { machineBasic with Requirements := [⟨labelHostname, ["h1"]⟩, ⟨"k", ["a"]⟩] } "k").2.1
      (by decide)⟩

/-- Claim C1: whenever `Machine.Add` returns an error, the machine state
(requirements, requests, instance type options, pods, taints, host-port
claims) and the shared topology state are exactly what they were before
the call: admission is all-or-nothing. -/
theorem add_atomic (m : Machine) (t : Topology) (pod : Pod) (e : String)
    (m' : Machine) (t' : Topology)
    (h : Machine.Add m t pod = (.error e, m', t')) : m' = m ∧ t' = t := by
  unfold Machine.Add at h
  repeat' first
    | (injection h with h1 h2; injection h2 with ha hb; exact ⟨ha.symm, hb.symm⟩)
    | (injection h with h1 h2; injection h1)
    | simp only [] at h
    | split at h

/-- Witness for C1: a tainted machine rejects an intolerant pod and both
the machine and the topology are returned unchanged. -/
theorem add_atomic_witness :
    Machine.Add machineTainted topoTrivial podBasic
      = (.error "did not tolerate gpu", machineTainted, topoTrivial)
    ∧ (machineTainted = machineTainted ∧ topoTrivial = topoTrivial) :=
  ⟨rfl, add_atomic machineTainted topoTrivial podBasic "did not tolerate gpu"
    machineTainted topoTrivial rfl⟩

/-- Following the spec's words for the listing format: names
comma-separated ("all N names comma-separated"). Used only to state the
formatting contract `instanceTypeList_spec`. -/
def commaJoin : List String → String
  | [] => ""
  | [x] => x
  | x :: xs => x ++ ", " ++ commaJoin xs

/-- Claim C7: for a list of `N` instance types, `InstanceTypeList` yields
all `N` names comma-separated when `N ≤ 5`, and exactly the first five
names in input order, comma-separated, followed by " and N-5 other(s)"
when `N > 5`. -/
theorem instanceTypeList_spec (opts : List InstanceType) :
    InstanceTypeList opts =
      if 5 < opts.length then
        commaJoin ((opts.take 5).map (fun it => it.Name)) ++ " and "
          ++ toString (opts.length - 5) ++ " other(s)"
      else commaJoin (opts.map (fun it => it.Name)) := by
  match opts with
  | [] => rfl
  | [a] => simp [InstanceTypeList, itlGo, commaJoin]
  | [a, b] => simp [InstanceTypeList, itlGo, commaJoin, String.append_assoc]
  | [a, b, c] => simp [InstanceTypeList, itlGo, commaJoin, String.append_assoc]
  | [a, b, c, d] => simp [InstanceTypeList, itlGo, commaJoin, String.append_assoc]
  | [a, b, c, d, e] => simp [InstanceTypeList, itlGo, commaJoin, String.append_assoc]
  | a :: b :: c :: d :: e :: f :: rest =>
      rw [if_pos (by simp only [List.length_cons]; omega)]
      simp [InstanceTypeList, itlGo, commaJoin, String.append_assoc]

/-! ## Characterization of the branches of `Machine.Add` -/

theorem add_taint_error (m : Machine) (t : Topology) (pod : Pod) (e : String)
    (h1 : taintsTolerates m.Taints pod = .error e) :
    Machine.Add m t pod = (.error e, m, t) := by
  simp [Machine.Add, h1]

theorem add_hostPort_error (m : Machine) (t : Topology) (pod : Pod) (e : String)
    (h1 : taintsTolerates m.Taints pod = .ok ())
    (h2 : hostPortValidate m.hostPortUsage pod = .error e) :
    Machine.Add m t pod = (.error e, m, t) := by
  simp [Machine.Add, h1, h2]

theorem add_compat1_error (m : Machine) (t : Topology) (pod : Pod) (e : String)
    (h1 : taintsTolerates m.Taints pod = .ok ())
    (h2 : hostPortValidate m.hostPortUsage pod = .ok ())
    (h3 : reqtsCompatible (NewRequirements m.Requirements) (NewPodRequirements pod) = .error e) :
    Machine.Add m t pod = (.error ("incompatible requirements, " ++ e), m, t) := by
  simp [Machine.Add, h1, h2, h3]

theorem add_topology_error (m : Machine) (t : Topology) (pod : Pod) (e : String)
    (h1 : taintsTolerates m.Taints pod = .ok ())
    (h2 : hostPortValidate m.hostPortUsage pod = .ok ())
    (h3 : reqtsCompatible (NewRequirements m.Requirements) (NewPodRequirements pod) = .ok ())
    (h4 : t.addRequirements (NewPodRequirements pod)
        (reqsAddAll (NewRequirements m.Requirements) (NewPodRequirements pod)) pod = .error e) :
    Machine.Add m t pod = (.error e, m, t) := by
  simp [Machine.Add, h1, h2, h3, h4]

theorem add_compat2_error (m : Machine) (t : Topology) (pod : Pod) (e : String)
    (tr : Requirements)
    (h1 : taintsTolerates m.Taints pod = .ok ())
    (h2 : hostPortValidate m.hostPortUsage pod = .ok ())
    (h3 : reqtsCompatible (NewRequirements m.Requirements) (NewPodRequirements pod) = .ok ())
    (h4 : t.addRequirements (NewPodRequirements pod)
        (reqsAddAll (NewRequirements m.Requirements) (NewPodRequirements pod)) pod = .ok tr)
    (h5 : reqtsCompatible (reqsAddAll (NewRequirements m.Requirements) (NewPodRequirements pod)) tr
        = .error e) :
    Machine.Add m t pod = (.error e, m, t) := by
  simp [Machine.Add, h1, h2, h3, h4, h5]

theorem add_filter_empty (m : Machine) (t : Topology) (pod : Pod) (tr : Requirements)
    (h1 : taintsTolerates m.Taints pod = .ok ())
    (h2 : hostPortValidate m.hostPortUsage pod = .ok ())
    (h3 : reqtsCompatible (NewRequirements m.Requirements) (NewPodRequirements pod) = .ok ())
    (h4 : t.addRequirements (NewPodRequirements pod)
        (reqsAddAll (NewRequirements m.Requirements) (NewPodRequirements pod)) pod = .ok tr)
    (h5 : reqtsCompatible (reqsAddAll (NewRequirements m.Requirements) (NewPodRequirements pod)) tr
        = .ok ())
    (hfe : (filterInstanceTypesByRequirements m.InstanceTypeOptions
        (reqsAddAll (reqsAddAll (NewRequirements m.Requirements) (NewPodRequirements pod)) tr)
        (Merge m.Requests (RequestsForPods pod))).1.isEmpty = true) :
    Machine.Add m t pod = (.error ("no instance type satisfied resources "
      ++ resourcesString (RequestsForPods pod) ++ " and requirements "
      ++ reqtsString (reqsAddAll (reqsAddAll (NewRequirements m.Requirements)
          (NewPodRequirements pod)) tr)
      ++ " [had " ++ toString m.InstanceTypeOptions.length ++ "] ("
      ++ sliceString (filterInstanceTypesByRequirements m.InstanceTypeOptions
          (reqsAddAll (reqsAddAll (NewRequirements m.Requirements) (NewPodRequirements pod)) tr)
          (Merge m.Requests (RequestsForPods pod))).2 ++ ")"), m, t) := by
  simp [Machine.Add, h1, h2, h3, h4, h5, hfe]

theorem add_commit (m : Machine) (t : Topology) (pod : Pod) (tr : Requirements)
    (h1 : taintsTolerates m.Taints pod = .ok ())
    (h2 : hostPortValidate m.hostPortUsage pod = .ok ())
    (h3 : reqtsCompatible (NewRequirements m.Requirements) (NewPodRequirements pod) = .ok ())
    (h4 : t.addRequirements (NewPodRequirements pod)
        (reqsAddAll (NewRequirements m.Requirements) (NewPodRequirements pod)) pod = .ok tr)
    (h5 : reqtsCompatible (reqsAddAll (NewRequirements m.Requirements) (NewPodRequirements pod)) tr
        = .ok ())
    (hfe : (filterInstanceTypesByRequirements m.InstanceTypeOptions
        (reqsAddAll (reqsAddAll (NewRequirements m.Requirements) (NewPodRequirements pod)) tr)
        (Merge m.Requests (RequestsForPods pod))).1.isEmpty = false) :
    Machine.Add m t pod = (.ok (),
      { m with
        Pods := m.Pods ++ [pod]
        InstanceTypeOptions := (filterInstanceTypesByRequirements m.InstanceTypeOptions
          (reqsAddAll (reqsAddAll (NewRequirements m.Requirements) (NewPodRequirements pod)) tr)
          (Merge m.Requests (RequestsForPods pod))).1
        Requests := Merge m.Requests (RequestsForPods pod)
        Requirements := reqsAddAll (reqsAddAll (NewRequirements m.Requirements)
          (NewPodRequirements pod)) tr
        hostPortUsage := hostPortAdd m.hostPortUsage pod },
      t.record pod (reqsAddAll (reqsAddAll (NewRequirements m.Requirements)
        (NewPodRequirements pod)) tr)) := by
  simp [Machine.Add, h1, h2, h3, h4, h5, hfe]

/-- Inversion of a successful `Machine.Add`: the checks all passed, the
filtered list is non-empty, and the returned machine and topology are the
committed states. -/
theorem add_ok_inv (m : Machine) (t : Topology) (pod : Pod) (m' : Machine) (t' : Topology)
    (h : Machine.Add m t pod = (.ok (), m', t')) :
    ∃ tr, t.addRequirements (NewPodRequirements pod)
        (reqsAddAll (NewRequirements m.Requirements) (NewPodRequirements pod)) pod = .ok tr
      ∧ (filterInstanceTypesByRequirements m.InstanceTypeOptions
          (reqsAddAll (reqsAddAll (NewRequirements m.Requirements) (NewPodRequirements pod)) tr)
          (Merge m.Requests (RequestsForPods pod))).1.isEmpty = false
      ∧ m' = { m with
          Pods := m.Pods ++ [pod]
          InstanceTypeOptions := (filterInstanceTypesByRequirements m.InstanceTypeOptions
            (reqsAddAll (reqsAddAll (NewRequirements m.Requirements) (NewPodRequirements pod)) tr)
            (Merge m.Requests (RequestsForPods pod))).1
          Requests := Merge m.Requests (RequestsForPods pod)
          Requirements := reqsAddAll (reqsAddAll (NewRequirements m.Requirements)
            (NewPodRequirements pod)) tr
          hostPortUsage := hostPortAdd m.hostPortUsage pod }
      ∧ t' = t.record pod (reqsAddAll (reqsAddAll (NewRequirements m.Requirements)
          (NewPodRequirements pod)) tr) := by
  cases h1 : taintsTolerates m.Taints pod with
  | error e => rw [add_taint_error m t pod e h1] at h; simp at h
  | ok u =>
    cases u
    cases h2 : hostPortValidate m.hostPortUsage pod with
    | error e => rw [add_hostPort_error m t pod e h1 h2] at h; simp at h
    | ok u =>
      cases u
      cases h3 : reqtsCompatible (NewRequirements m.Requirements) (NewPodRequirements pod) with
      | error e => rw [add_compat1_error m t pod e h1 h2 h3] at h; simp at h
      | ok u =>
        cases u
        cases h4 : t.addRequirements (NewPodRequirements pod)
            (reqsAddAll (NewRequirements m.Requirements) (NewPodRequirements pod)) pod with
        | error e => rw [add_topology_error m t pod e h1 h2 h3 h4] at h; simp at h
        | ok tr =>
          cases h5 : reqtsCompatible
              (reqsAddAll (NewRequirements m.Requirements) (NewPodRequirements pod)) tr with
          | error e => rw [add_compat2_error m t pod e tr h1 h2 h3 h4 h5] at h; simp at h
          | ok u =>
            cases u
            cases hfe : (filterInstanceTypesByRequirements m.InstanceTypeOptions
                (reqsAddAll (reqsAddAll (NewRequirements m.Requirements)
                  (NewPodRequirements pod)) tr)
                (Merge m.Requests (RequestsForPods pod))).1.isEmpty with
            | true => rw [add_filter_empty m t pod tr h1 h2 h3 h4 h5 hfe] at h; simp at h
            | false =>
              rw [add_commit m t pod tr h1 h2 h3 h4 h5 hfe] at h
              simp only [Prod.mk.injEq, true_and] at h
              exact ⟨tr, rfl, hfe, h.1.symm, h.2.symm⟩

/-! ## Resource-list arithmetic -/

/-- Total quantity carried by all entries of a resource name (duplicate
entries included). -/
def sumQty : ResourceList → String → Nat
  | [], _ => 0
  | (k0, q) :: rest, k => (if k0 = k then q else 0) + sumQty rest k

theorem getQty_addQty (a : ResourceList) (k : String) (q : Nat) (k' : String) :
    getQty (addQty a k q) k' = getQty a k' + (if k = k' then q else 0) := by
  induction a with
  | nil => simp [addQty, getQty]
  | cons hd rest ih =>
      obtain ⟨k0, q0⟩ := hd
      by_cases h1 : k0 = k
      · subst h1
        by_cases h2 : k0 = k'
        · subst h2; simp [addQty, getQty]
        · simp [addQty, getQty, h2]
      · by_cases h2 : k0 = k'
        · subst h2
          have h3 : ¬k = k0 := fun he => h1 he.symm
          simp [addQty, getQty, h1, h3]
        · simp [addQty, getQty, h1, h2, ih]

theorem getQty_mergeInto (l : ResourceList) (acc : ResourceList) (k : String) :
    getQty (mergeInto acc l) k = getQty acc k + sumQty l k := by
  induction l generalizing acc with
  | nil => simp [mergeInto, sumQty]
  | cons hd rest ih =>
      obtain ⟨k0, q⟩ := hd
      rw [show mergeInto acc ((k0, q) :: rest) = mergeInto (addQty acc k0 q) rest from rfl,
        ih, getQty_addQty]
      simp [sumQty]
      omega

theorem getQty_le_sumQty (l : ResourceList) (k : String) :
    getQty l k ≤ sumQty l k := by
  induction l with
  | nil => simp [getQty, sumQty]
  | cons hd rest ih =>
      obtain ⟨k0, q⟩ := hd
      by_cases h : k0 = k
      · simp [getQty, sumQty, h]
      · simp [getQty, sumQty, h]; omega

theorem getQty_le_Merge (a b : ResourceList) (k : String) :
    getQty a k ≤ getQty (Merge a b) k := by
  have h1 : getQty (Merge a b) k = sumQty a k + sumQty b k := by
    simp [Merge, getQty_mergeInto, getQty]
  have h2 := getQty_le_sumQty a k
  omega

/-- Claim C4: after every successful `Add`, the machine's
`instanceTypeOptions` is non-empty (an `Add` whose filtering would empty
it returns an error instead, leaving the prior state, by C1), and every
remaining instance type is compatible with the machine's requirements and
fits the machine's accumulated requests within its allocatable
capacity. -/
theorem add_success_invariants (m : Machine) (t : Topology) (pod : Pod)
    (m' : Machine) (t' : Topology)
    (h : Machine.Add m t pod = (.ok (), m', t')) :
    m'.InstanceTypeOptions ≠ []
    ∧ ∀ it ∈ m'.InstanceTypeOptions,
        compatible it m'.Requirements = true ∧ fits it m'.Requests = true := by
  obtain ⟨tr, _h4, hfe, hm, _ht⟩ := add_ok_inv m t pod m' t' h
  subst hm
  constructor
  · show (filterInstanceTypesByRequirements m.InstanceTypeOptions
        (reqsAddAll (reqsAddAll (NewRequirements m.Requirements) (NewPodRequirements pod)) tr)
        (Merge m.Requests (RequestsForPods pod))).1 ≠ []
    intro hnil
    rw [hnil] at hfe
    simp at hfe
  · intro it hit
    simp only [filterInstanceTypesByRequirements, List.mem_filter, Bool.and_eq_true] at hit
    exact ⟨hit.2.1.1, hit.2.1.2⟩

/-- Witness for C4: a successful admission leaves a non-empty candidate
list. -/
theorem add_success_invariants_witness :
    (Machine.Add machineBasic topoTrivial podBasic).2.1.InstanceTypeOptions ≠ [] :=
  (add_success_invariants machineBasic topoTrivial podBasic
    (Machine.Add machineBasic topoTrivial podBasic).2.1
    (Machine.Add machineBasic topoTrivial podBasic).2.2 rfl).1

/-- Claim C5: across any sequence of successful `Add` calls on one
machine, the length of `instanceTypeOptions` never increases and the
accumulated `requests` quantities never decrease, component-wise. -/
theorem addAll_monotone (ps : List Pod) :
    ∀ (m : Machine) (t : Topology) (m' : Machine) (t' : Topology),
      addAll m t ps = some (m', t') →
        m'.InstanceTypeOptions.length ≤ m.InstanceTypeOptions.length
        ∧ ∀ k, getQty m.Requests k ≤ getQty m'.Requests k := by
  induction ps with
  | nil =>
      intro m t m' t' h
      simp only [addAll, Option.some.injEq, Prod.mk.injEq] at h
      rw [← h.1]
      exact ⟨Nat.le_refl _, fun k => Nat.le_refl _⟩
  | cons p ps ih =>
      intro m t m' t' h
      simp only [addAll] at h
      rcases hstep : Machine.Add m t p with ⟨res, m1, t1⟩
      rw [hstep] at h
      cases res with
      | error e => simp at h
      | ok u =>
          cases u
          simp only [] at h
          obtain ⟨tr, _h4, hfe, hm, _ht⟩ := add_ok_inv m t p m1 t1 hstep
          have hstepLen : m1.InstanceTypeOptions.length ≤ m.InstanceTypeOptions.length := by
            subst hm
            simp only [filterInstanceTypesByRequirements]
            exact List.length_filter_le _ _
          have hstepReq : ∀ k, getQty m.Requests k ≤ getQty m1.Requests k := by
            subst hm
            intro k
            exact getQty_le_Merge m.Requests (RequestsForPods p) k
          obtain ⟨hlen, hreq⟩ := ih m1 t1 m' t' h
          exact ⟨Nat.le_trans hlen hstepLen, fun k => Nat.le_trans (hstepReq k) (hreq k)⟩

/-- Witness for C5 at a one-pod sequence of successful adds. -/
theorem addAll_monotone_witness :
    machineAfter.InstanceTypeOptions.length ≤ machineBasic.InstanceTypeOptions.length :=
  (addAll_monotone [podBasic] machineBasic topoTrivial machineAfter topoAfter rfl).1

/-- Turning the Bool disjunction produced by `hasOffering` into the
spec's "unconstrained dimensions are always satisfied" implication. -/
theorem bool_eq_false_or_iff_imp (b : Bool) (p : Prop) :
    (b = false ∨ p) ↔ (b = true → p) := by
  cases b <;> simp

/-- `hasOffering` holds exactly when some offering of the instance type
is available, its zone is allowed whenever the requirement set constrains
the zone, and its capacity type is allowed whenever the requirement set
constrains the capacity type. -/
theorem hasOffering_iff (it : InstanceType) (requirements : Requirements) :
    hasOffering it requirements = true ↔
      ∃ o ∈ it.Offerings, o.Available = true
        ∧ (reqHas requirements labelTopologyZone = true →
            o.Zone ∈ reqGet requirements labelTopologyZone)
        ∧ (reqHas requirements labelCapacityType = true →
            o.CapacityType ∈ reqGet requirements labelCapacityType) := by
  simp only [hasOffering, offeringsAvailable, List.any_eq_true, List.mem_filter,
    Bool.and_eq_true, Bool.or_eq_true, Bool.not_eq_true', List.elem_iff,
    bool_eq_false_or_iff_imp, and_assoc]

/-- Claim C2: an instance type of the input list survives
`filterInstanceTypesByRequirements` exactly when its own requirement set
intersects the given requirement set, the requests fit component-wise in
its allocatable capacity, and it has at least one available offering
whose zone and capacity type satisfy whatever the requirement set
constrains (unconstrained dimensions are always satisfied). -/
theorem filter_mem_iff (instanceTypes : List InstanceType) (requirements : Requirements)
    (requests : ResourceList) (it : InstanceType) (h : it ∈ instanceTypes) :
    it ∈ (filterInstanceTypesByRequirements instanceTypes requirements requests).1 ↔
      compatible it requirements = true
      ∧ fits it requests = true
      ∧ ∃ o ∈ it.Offerings, o.Available = true
          ∧ (reqHas requirements labelTopologyZone = true →
              o.Zone ∈ reqGet requirements labelTopologyZone)
          ∧ (reqHas requirements labelCapacityType = true →
              o.CapacityType ∈ reqGet requirements labelCapacityType) := by
  simp [filterInstanceTypesByRequirements, List.mem_filter, h, Bool.and_eq_true,
    hasOffering_iff, and_assoc]

/-- Witness for C2: the viable fixture survives filtering alongside a
non-viable one. -/
theorem filter_mem_iff_witness :
    itSmall ∈ (filterInstanceTypesByRequirements [itSmall, itBad] [] [("cpu", 1)]).1 :=
  (filter_mem_iff [itSmall, itBad] [] [("cpu", 1)] itSmall (by decide)).mpr (by decide)

/-- Claim C3: `Machine.Add` evaluates its checks in the strict order
taint tolerance, host-port validation, machine-vs-pod requirement
compatibility, topology-derived requirement compatibility, instance-type
narrowing; it short-circuits with the error of the first failing check
(leaving machine and topology untouched), and commits — appending the
pod, replacing options, requests and requirements, recording the
placement in the topology tracker, claiming the host ports — only when
every check has succeeded. -/
theorem add_check_order (m : Machine) (t : Topology) (pod : Pod) :
    (∀ e, taintsTolerates m.Taints pod = .error e →
        Machine.Add m t pod = (.error e, m, t))
    ∧ (∀ e, taintsTolerates m.Taints pod = .ok () →
        hostPortValidate m.hostPortUsage pod = .error e →
        Machine.Add m t pod = (.error e, m, t))
    ∧ (∀ e, taintsTolerates m.Taints pod = .ok () →
        hostPortValidate m.hostPortUsage pod = .ok () →
        reqtsCompatible (NewRequirements m.Requirements) (NewPodRequirements pod) = .error e →
        Machine.Add m t pod = (.error ("incompatible requirements, " ++ e), m, t))
    ∧ (∀ e, taintsTolerates m.Taints pod = .ok () →
        hostPortValidate m.hostPortUsage pod = .ok () →
        reqtsCompatible (NewRequirements m.Requirements) (NewPodRequirements pod) = .ok () →
        t.addRequirements (NewPodRequirements pod)
          (reqsAddAll (NewRequirements m.Requirements) (NewPodRequirements pod)) pod = .error e →
        Machine.Add m t pod = (.error e, m, t))
    ∧ (∀ e tr, taintsTolerates m.Taints pod = .ok () →
        hostPortValidate m.hostPortUsage pod = .ok () →
        reqtsCompatible (NewRequirements m.Requirements) (NewPodRequirements pod) = .ok () →
        t.addRequirements (NewPodRequirements pod)
          (reqsAddAll (NewRequirements m.Requirements) (NewPodRequirements pod)) pod = .ok tr →
        reqtsCompatible (reqsAddAll (NewRequirements m.Requirements) (NewPodRequirements pod)) tr
          = .error e →
        Machine.Add m t pod = (.error e, m, t))
    ∧ (∀ tr, taintsTolerates m.Taints pod = .ok () →
        hostPortValidate m.hostPortUsage pod = .ok () →
        reqtsCompatible (NewRequirements m.Requirements) (NewPodRequirements pod) = .ok () →
        t.addRequirements (NewPodRequirements pod)
          (reqsAddAll (NewRequirements m.Requirements) (NewPodRequirements pod)) pod = .ok tr →
        reqtsCompatible (reqsAddAll (NewRequirements m.Requirements) (NewPodRequirements pod)) tr
          = .ok () →
        (filterInstanceTypesByRequirements m.InstanceTypeOptions
          (reqsAddAll (reqsAddAll (NewRequirements m.Requirements) (NewPodRequirements pod)) tr)
          (Merge m.Requests (RequestsForPods pod))).1.isEmpty = true →
        (Machine.Add m t pod).1 = .error ("no instance type satisfied resources "
          ++ resourcesString (RequestsForPods pod) ++ " and requirements "
          ++ reqtsString (reqsAddAll (reqsAddAll (NewRequirements m.Requirements)
              (NewPodRequirements pod)) tr)
          ++ " [had " ++ toString m.InstanceTypeOptions.length ++ "] ("
          ++ sliceString (filterInstanceTypesByRequirements m.InstanceTypeOptions
              (reqsAddAll (reqsAddAll (NewRequirements m.Requirements) (NewPodRequirements pod)) tr)
              (Merge m.Requests (RequestsForPods pod))).2 ++ ")"))
    ∧ (∀ tr, taintsTolerates m.Taints pod = .ok () →
        hostPortValidate m.hostPortUsage pod = .ok () →
        reqtsCompatible (NewRequirements m.Requirements) (NewPodRequirements pod) = .ok () →
        t.addRequirements (NewPodRequirements pod)
          (reqsAddAll (NewRequirements m.Requirements) (NewPodRequirements pod)) pod = .ok tr →
        reqtsCompatible (reqsAddAll (NewRequirements m.Requirements) (NewPodRequirements pod)) tr
          = .ok () →
        (filterInstanceTypesByRequirements m.InstanceTypeOptions
          (reqsAddAll (reqsAddAll (NewRequirements m.Requirements) (NewPodRequirements pod)) tr)
          (Merge m.Requests (RequestsForPods pod))).1.isEmpty = false →
        Machine.Add m t pod = (.ok (),
          { m with
            Pods := m.Pods ++ [pod]
            InstanceTypeOptions := (filterInstanceTypesByRequirements m.InstanceTypeOptions
              (reqsAddAll (reqsAddAll (NewRequirements m.Requirements) (NewPodRequirements pod)) tr)
              (Merge m.Requests (RequestsForPods pod))).1
            Requests := Merge m.Requests (RequestsForPods pod)
            Requirements := reqsAddAll (reqsAddAll (NewRequirements m.Requirements)
              (NewPodRequirements pod)) tr
            hostPortUsage := hostPortAdd m.hostPortUsage pod },
          t.record pod (reqsAddAll (reqsAddAll (NewRequirements m.Requirements)
            (NewPodRequirements pod)) tr))) :=
  ⟨fun e h1 => add_taint_error m t pod e h1,
   fun e h1 h2 => add_hostPort_error m t pod e h1 h2,
   fun e h1 h2 h3 => add_compat1_error m t pod e h1 h2 h3,
   fun e h1 h2 h3 h4 => add_topology_error m t pod e h1 h2 h3 h4,
   fun e tr h1 h2 h3 h4 h5 => add_compat2_error m t pod e tr h1 h2 h3 h4 h5,
   fun tr h1 h2 h3 h4 h5 hfe => by
     rw [add_filter_empty m t pod tr h1 h2 h3 h4 h5 hfe],
   fun tr h1 h2 h3 h4 h5 hfe => add_commit m t pod tr h1 h2 h3 h4 h5 hfe⟩

/-- Witness for C3: all checks pass on the basic fixture and the commit
applies exactly the documented state updates. -/
theorem add_check_order_witness :
    Machine.Add machineBasic topoTrivial podBasic = (.ok (), machineAfter, topoAfter) :=
  (add_check_order machineBasic topoTrivial podBasic).2.2.2.2.2.2 []
    rfl rfl rfl rfl rfl (by decide)

/-! ## Injectivity of the synthetic hostname -/

/-- Decimal value of a digit string (leading zeros are ignored). -/
def ofDec (l : List Char) : Nat :=
  l.foldl (fun acc c => 10 * acc + (c.toNat - 48)) 0

theorem digitChar_toNat : ∀ d, d < 10 → (digitChar d).toNat = 48 + d := by decide

theorem toDec_foldl (n : Nat) :
    ∀ a, (toDec n).foldl (fun acc c => 10 * acc + (c.toNat - 48)) a
      = a * 10 ^ (toDec n).length + n := by
  induction n using Nat.strong_induction_on with
  | _ n ih =>
      intro a
      by_cases h : n < 10
      · rw [show toDec n = [digitChar n] from by rw [toDec]; simp [h]]
        simp [List.foldl, digitChar_toNat n h]
        omega
      · rw [show toDec n = toDec (n / 10) ++ [digitChar (n % 10)] from by rw [toDec]; simp [h]]
        rw [List.foldl_append, ih (n / 10) (Nat.div_lt_self (by omega) (by omega)) a]
        have hm : n % 10 < 10 := Nat.mod_lt n (by omega)
        simp only [List.foldl, digitChar_toNat (n % 10) hm, List.length_append,
          List.length_singleton]
        have hp : (10 : Nat) ^ ((toDec (n / 10)).length + 1)
            = 10 ^ (toDec (n / 10)).length * 10 := pow_succ 10 _
        rw [hp]
        have hq : a * (10 ^ (toDec (n / 10)).length * 10)
            = 10 * (a * 10 ^ (toDec (n / 10)).length) := by ring
        rw [hq]
        omega

theorem ofDec_replicate_zero (k : Nat) (l : List Char) :
    ofDec (List.replicate k '0' ++ l) = ofDec l := by
  induction k with
  | zero => simp
  | succ k ih =>
      rw [List.replicate_succ, List.cons_append]
      show (List.replicate k '0' ++ l).foldl (fun acc c => 10 * acc + (c.toNat - 48))
          (10 * 0 + ('0'.toNat - 48)) = ofDec l
      rw [show (10 * 0 + ('0'.toNat - 48)) = 0 from by decide]
      exact ih

theorem ofDec_toDec (n : Nat) : ofDec (toDec n) = n := by
  rw [ofDec, toDec_foldl n 0]
  simp

theorem pad4_inj (a b : Nat) (h : (pad4 a).data = (pad4 b).data) : a = b := by
  simp only [pad4] at h
  have ha := congrArg ofDec h
  rw [ofDec_replicate_zero, ofDec_replicate_zero, ofDec_toDec, ofDec_toDec] at ha
  exact ha

/-- The synthetic hostname embeds the counter injectively: two distinct
counter values always yield distinct hostname strings. -/
theorem hostnameFor_inj (a b : Nat) (h : hostnameFor a = hostnameFor b) : a = b := by
  simp only [hostnameFor] at h
  have hd := congrArg String.data h
  rw [String.data_append, String.data_append] at hd
  exact pad4_inj a b (List.append_cancel_left hd)

/-! ## Requirement-set copy and merge lemmas -/

theorem reqHas_reqsAdd (rs : Requirements) (r : Requirement) (k : String) :
    reqHas (reqsAdd rs r) k = (reqHas rs k || decide (r.key = k)) := by
  induction rs with
  | nil => by_cases h : r.key = k <;> simp [reqsAdd, reqHas, h]
  | cons r0 rest ih =>
      simp only [reqsAdd]
      by_cases h0 : r0.key = r.key
      · rw [if_pos h0]
        by_cases hk : r0.key = k
        · simp [reqHas, hk]
        · have hrk : ¬r.key = k := fun he => hk (h0.trans he)
          simp [reqHas, hk, hrk]
      · rw [if_neg h0]
        by_cases hk : r0.key = k
        · simp [reqHas, hk]
        · simp [reqHas, hk, ih]

theorem reqHas_reqsAddAll (rs : List Requirement) :
    ∀ (acc : Requirements) (k : String),
      reqHas (reqsAddAll acc rs) k
        = (reqHas acc k || rs.any (fun r => decide (r.key = k))) := by
  induction rs with
  | nil => intro acc k; simp [reqsAddAll]
  | cons r rest ih =>
      intro acc k
      rw [show reqsAddAll acc (r :: rest) = reqsAddAll (reqsAdd acc r) rest from rfl,
        ih (reqsAdd acc r) k, reqHas_reqsAdd]
      simp [Bool.or_assoc]

theorem reqHas_eq_any (rs : Requirements) (k : String) :
    reqHas rs k = rs.any (fun r => decide (r.key = k)) := by
  induction rs with
  | nil => simp [reqHas]
  | cons r rest ih => by_cases h : r.key = k <;> simp [reqHas, h, ih]

theorem reqsAdd_absent (rs : Requirements) (r : Requirement)
    (h : reqHas rs r.key = false) : reqsAdd rs r = rs ++ [r] := by
  induction rs with
  | nil => simp [reqsAdd]
  | cons r0 rest ih =>
      simp only [reqHas] at h
      by_cases h0 : r0.key = r.key
      · simp [h0] at h
      · simp only [h0, if_false] at h
        simp [reqsAdd, h0, ih h]

theorem reqGet_reqsAdd_absent (rs : Requirements) (r : Requirement)
    (h : reqHas rs r.key = false) : reqGet (reqsAdd rs r) r.key = r.values := by
  rw [reqsAdd_absent rs r h]
  induction rs with
  | nil => simp [reqGet]
  | cons r0 rest ih =>
      simp only [reqHas] at h
      by_cases h0 : r0.key = r.key
      · simp [h0] at h
      · simp only [h0, if_false] at h
        simp [reqGet, h0, ih h]

theorem reqsAddAll_fresh (rs : List Requirement) :
    ∀ acc : Requirements, (∀ r ∈ rs, reqHas acc r.key = false) →
      (rs.map (fun r => r.key)).Nodup → reqsAddAll acc rs = acc ++ rs := by
  induction rs with
  | nil => intro acc _ _; simp [reqsAddAll]
  | cons r rest ih =>
      intro acc habs hnd
      rw [show reqsAddAll acc (r :: rest) = reqsAddAll (reqsAdd acc r) rest from rfl,
        reqsAdd_absent acc r (habs r (List.mem_cons_self r rest))]
      rw [List.map_cons, List.nodup_cons] at hnd
      have habs' : ∀ r' ∈ rest, reqHas (acc ++ [r]) r'.key = false := by
        intro r' hr'
        have h1 := habs r' (List.mem_cons_of_mem r hr')
        have h2 : ¬r.key = r'.key := by
          intro he
          exact hnd.1 (he ▸ List.mem_map_of_mem (fun x => x.key) hr')
        rw [reqHas_eq_any, List.any_append]
        rw [reqHas_eq_any] at h1
        simp [h1, h2]
      rw [ih (acc ++ [r]) habs' hnd.2]
      simp

/-- Copying a requirement set whose keys are distinct reproduces it. -/
theorem NewRequirements_copy (rs : Requirements)
    (hnd : (rs.map (fun r => r.key)).Nodup) : NewRequirements rs = rs := by
  rw [NewRequirements, reqsAddAll_fresh rs [] (fun r _ => rfl) hnd]
  simp

/-- Claim C6: `NewMachine` always succeeds (it is total) and returns a
machine whose requests equal the daemon overhead, whose instance type
options are exactly the unfiltered candidate list, and whose requirements
are a copy of the template's requirements merged with one synthetic
hostname requirement holding a single value; the hostname embeds the
strictly-increased process counter injectively, so the value is unique
within the process, and the hostname is registered with the topology
tracker. -/
theorem newMachine_spec (machineTemplate : MachineTemplate) (topology : Topology)
    (daemonResources : ResourceList) (instanceTypes : List InstanceType) (nodeID : Nat) :
    (NewMachine machineTemplate topology daemonResources instanceTypes nodeID).1.Requests
        = daemonResources
    ∧ (NewMachine machineTemplate topology daemonResources instanceTypes nodeID).1.InstanceTypeOptions
        = instanceTypes
    ∧ (NewMachine machineTemplate topology daemonResources instanceTypes nodeID).1.Pods = []
    ∧ (NewMachine machineTemplate topology daemonResources instanceTypes nodeID).1.Taints
        = machineTemplate.Taints
    ∧ (NewMachine machineTemplate topology daemonResources instanceTypes nodeID).2.2 = nodeID + 1
    ∧ (NewMachine machineTemplate topology daemonResources instanceTypes nodeID).2.1
        = topology.register labelHostname (hostnameFor (nodeID + 1))
    ∧ (NewMachine machineTemplate topology daemonResources instanceTypes nodeID).1.Requirements
        = reqsAdd (NewRequirements machineTemplate.Requirements)
            ⟨labelHostname, [hostnameFor (nodeID + 1)]⟩
    ∧ ((machineTemplate.Requirements.map (fun r => r.key)).Nodup →
        NewRequirements machineTemplate.Requirements = machineTemplate.Requirements)
    ∧ (reqHas machineTemplate.Requirements labelHostname = false →
        reqGet (NewMachine machineTemplate topology daemonResources instanceTypes
            nodeID).1.Requirements labelHostname
          = [hostnameFor (nodeID + 1)])
    ∧ (∀ a b : Nat, hostnameFor a = hostnameFor b → a = b) := by
  refine ⟨rfl, rfl, rfl, rfl, rfl, rfl, rfl, NewRequirements_copy machineTemplate.Requirements,
    ?_, hostnameFor_inj⟩
  intro habs
  have hfresh : reqHas (NewRequirements machineTemplate.Requirements) labelHostname = false := by
    rw [NewRequirements, reqHas_reqsAddAll, ← reqHas_eq_any]
    simp [reqHas, habs]
  show reqGet (reqsAdd (NewRequirements machineTemplate.Requirements)
      ⟨labelHostname, [hostnameFor (nodeID + 1)]⟩) labelHostname = [hostnameFor (nodeID + 1)]
  exact reqGet_reqsAdd_absent (NewRequirements machineTemplate.Requirements)
    ⟨labelHostname, [hostnameFor (nodeID + 1)]⟩ hfresh

/-- Witness for C6 at a concrete template without a hostname key. -/
theorem newMachine_spec_witness :
    reqHas ([⟨"arch", ["amd64"]⟩] : Requirements) labelHostname = false
    ∧ reqGet (NewMachine ⟨[⟨"arch", ["amd64"]⟩], [], [], []⟩ topoTrivial [] [] 0).1.Requirements
        labelHostname = [hostnameFor 1] :=
  ⟨by decide,
    (newMachine_spec ⟨[⟨"arch", ["amd64"]⟩], [], [], []⟩ topoTrivial [] [] 0).2.2.2.2.2.2.2.2.1
      (by decide)⟩

end KarpenterCore
